import Mathlib

/-!
Verification development for the guut mutation-testing loop.

This file gives a shallow embedding of the parts of the repository that the
checked properties are about:

* `src/guut/parsing.py` — markdown code-block detection and extraction,
* `src/guut/loop.py` — the debugging-session state machine (response parsing,
  action resolution, prompt/experiment/test handlers, session results),
* `src/guut/execution.py` — sandboxed script execution results,
* `src/guut/cosmic_ray_runner.py` — the mutant-kill scheduler and the
  coverage-guided sweep.

Python strings are modelled as Lean `String`s; wherever the source relies on
Python string semantics (`str.splitlines`, `str.strip`, truthiness of strings
and lists), that behaviour is embedded explicitly below.  External
collaborators (the LLM endpoint, the sandbox subprocess, prompt-template
rendering) are passed in as parameters, mirroring the call interfaces the
source code uses.
-/

namespace Guut

/-- Whitespace characters recognised by Python's `str.strip()` / the regex
class `\s` (ASCII range; the source only ever feeds it model text and
markdown). -/
def isPySpace (c : Char) : Bool :=
  c == ' ' || c == '\t' || c == '\n' || c == '\r' || c == '\x0b' || c == '\x0c'

/-- Line-break characters recognised by Python's `str.splitlines`. -/
def isLineBreakChar (c : Char) : Bool :=
  c == '\n' || c == '\r' || c == '\x0b' || c == '\x0c' || c == '\x1c' ||
  c == '\x1d' || c == '\x1e' || c == '\x85' || c == '\u2028' || c == '\u2029'

/-- Helper for `pySplitlines`: walks the character list accumulating the
current line (reversed); a terminal line break does not open an empty final
line, and `\r\n` counts as a single break, as in Python. -/
def splitlinesAux (cs : List Char) (acc : List Char) : List (List Char) :=
  match cs with
  | [] => [acc.reverse]
  | '\r' :: '\n' :: rest =>
    match rest with
    | [] => [acc.reverse]
    | _ => acc.reverse :: splitlinesAux rest []
  | c :: rest =>
    if isLineBreakChar c then
      match rest with
      | [] => [acc.reverse]
      | _ => acc.reverse :: splitlinesAux rest []
    else splitlinesAux rest (c :: acc)

/-- Python `str.splitlines()`. -/
def pySplitlines (s : String) : List String :=
  match s.data with
  | [] => []
  | cs => (splitlinesAux cs []).map (fun l => String.mk l)

/-- Python `str.strip()` (strip leading and trailing whitespace). -/
def pyStrip (s : String) : String :=
  String.mk (((s.data.dropWhile isPySpace).reverse.dropWhile isPySpace).reverse)

/-- `pre` is a prefix of `s` (on character lists). -/
def startsWithChars : List Char → List Char → Bool
  | [], _ => true
  | _ :: _, [] => false
  | p :: ps, c :: cs => p == c && startsWithChars ps cs

/-- Python `"\n".join(lines)`. -/
def joinNL : List String → String
  | [] => ""
  | [s] => s
  | s :: rest => s ++ "\n" ++ joinNL rest

/-! ## `src/guut/parsing.py` -/

/-- `parsing.MarkdownBlock`. -/
structure MarkdownBlock where
  language : Option String
  code : String
deriving DecidableEq, Repr

/-- `re.match(MARKDOWN_CODE_BLOCK_REGEX, line)` for the pattern
`^\x60\x60\x60([A-Za-z]+)?\s*$`: returns `some lang?` when the line is a fence
(with its optional language group), `none` otherwise.  The optional greedy
alpha group is forced: a shorter alpha run would leave an alphabetic character
where `\s*$` must match. -/
def fenceMatch (line : String) : Option (Option String) :=
  if startsWithChars "```".data line.data then
    let rest := line.data.drop 3
    let lang := rest.takeWhile Char.isAlpha
    let rem := rest.dropWhile Char.isAlpha
    if rem.all isPySpace then
      some (if lang.isEmpty then none else some (String.mk lang))
    else none
  else none

/-- Loop state of `parsing.extract_markdown_code_blocks`. -/
structure ExtractState where
  blocks : List MarkdownBlock
  in_code_block : Bool
  current_language : Option String
  current_lines : List String
deriving Repr

/-- One iteration of the `for line in response.splitlines()` loop in
`parsing.extract_markdown_code_blocks`. -/
def extractStep (st : ExtractState) (line : String) : ExtractState :=
  match fenceMatch line with
  | some langOpt =>
    if st.in_code_block then
      let blocks := st.blocks ++ [⟨st.current_language, joinNL st.current_lines⟩]
      -- if a language name is detected, start a new markdown block from the
      -- closing delimiters
      match langOpt with
      | some lang => ⟨blocks, true, some lang, []⟩
      | none => ⟨blocks, false, none, []⟩
    else
      { st with in_code_block := true, current_language := langOpt }
  | none =>
    if st.in_code_block then
      { st with current_lines := st.current_lines ++ [line] }
    else st

/-- `parsing.extract_markdown_code_blocks` (an unterminated final block is
discarded, as in the source). -/
def extractMarkdownCodeBlocks (response : String) : List MarkdownBlock :=
  ((pySplitlines response).foldl extractStep ⟨[], false, none, []⟩).blocks

/-- `parsing.detect_markdown_code_blocks`: pairs every line with a flag telling
whether it belongs to a fenced code block (fence lines themselves are flagged
`true`). -/
def detectMarkdownCodeBlocksAux : Bool → List String → List (String × Bool)
  | _, [] => []
  | inCode, line :: rest =>
    if startsWithChars "```".data (pyStrip line).data then
      (line, true) :: detectMarkdownCodeBlocksAux (!inCode) rest
    else
      (line, inCode) :: detectMarkdownCodeBlocksAux inCode rest

/-- `parsing.detect_markdown_code_blocks`. -/
def detectMarkdownCodeBlocks (response : String) : List (String × Bool) :=
  detectMarkdownCodeBlocksAux false (pySplitlines response)

/-! ## `src/guut/loop.py` — data model

The conversation tags only ever hold `State` values or `None`: `Loop.add_msg`
takes `tag: State | None` and every call site passes a `State` literal, so a
message tag is modelled as `Option State`.  Every `State` enum value is a
nonempty string, hence truthy in Python; the truthiness tests on tags in the
source therefore reduce to `Option.isSome`. -/

/-- `loop.State`. -/
inductive State where
  | empty
  | initial
  | experimentStated
  | experimentDoesntCompile
  | experimentResultsGiven
  | testInstructionsGiven
  | testStated
  | testDoesntCompile
  | testDoesntDetectMutant
  | claimedEquivalent
  | equivalenceMessageGiven
  | done
  | incompleteResponse
  | incompleteResponseInstructionsGiven
  | aborted
  | invalid
deriving DecidableEq, Repr

/-- `llm.Role`. -/
inductive Role where
  | system
  | user
  | assistant
deriving DecidableEq, Repr

/-- `llm.Message` (the fields the loop reads: role, content and tag). -/
structure Message where
  role : Role
  content : String
  tag : Option State
deriving DecidableEq, Repr

/-- `llm.Conversation`: an ordered, append-only list of messages. -/
abbrev Conversation := List Message

/-- `loop.ActionKind` restricted to the values an `ExperimentDescription` can
carry (`"observation" | "experiment" | "none"`); Python's `"none"` is spelled
`nokind`. -/
inductive EKind where
  | observation
  | experiment
  | nokind
deriving DecidableEq, Repr

/-- Section kinds produced by `Loop._parse_response` (`loop.ActionKind`). -/
inductive SectionKind where
  | observation
  | experiment
  | test
  | equivalence
  | nokind
deriving DecidableEq, Repr

/-- `loop.ExperimentDescription`. -/
structure ExperimentDescription where
  text : String
  code : String
  debugger_script : Option String
  kind : EKind
deriving DecidableEq, Repr

/-- `loop.TestDescription`. -/
structure TestDescription where
  text : String
  code : String
deriving DecidableEq, Repr

/-- `loop.EquivalenceClaim`. -/
structure EquivalenceClaim where
  text : String
deriving DecidableEq, Repr

/-- `loop.ResponseSection`. -/
structure ResponseSection where
  text : String
  code_blocks : List String
  debugger_blocks : List String
  kind : SectionKind
deriving DecidableEq, Repr

/-- `loop.Response`. -/
structure Response where
  text : String
  sections : List ResponseSection
deriving DecidableEq, Repr

/-- The non-`None`, non-claim part of `Response.guess_action`'s result
(`ExperimentDescription | TestDescription`). -/
inductive Action where
  | experimentAction (d : ExperimentDescription)
  | testAction (d : TestDescription)
deriving DecidableEq, Repr

/-! ### `Response._guess_section` and friends -/

/-- `Response._guess_section`: last section of the given kind that has code
blocks, else last section of the kind without code blocks, else `None`. -/
def guessSection (r : Response) (kind : SectionKind) : Option ResponseSection :=
  let matches_with_code :=
    r.sections.filter (fun s => s.kind == kind && !s.code_blocks.isEmpty)
  let matches_without_code :=
    r.sections.filter (fun s => s.kind == kind && s.code_blocks.isEmpty)
  match matches_with_code.getLast? with
  | some s => some s
  | none => matches_without_code.getLast?

/-- The combined test `(section := self._guess_section(k)) and
section.code_blocks` used by each branch of `guess_action`. -/
def guessSectionWithCode (r : Response) (kind : SectionKind) : Option ResponseSection :=
  match guessSection r kind with
  | some s => if s.code_blocks.isEmpty then none else some s
  | none => none

/-- `Response._guess_code_blocks`: the last code block and the last debugger
block of a section (`None` for an empty list; Python's `if code:` afterwards
is an emptiness test on the extracted string). -/
def guessCodeBlocks (s : ResponseSection) : Option String × Option String :=
  (s.code_blocks.getLast?, s.debugger_blocks.getLast?)

/-- `Response.guess_action`.  The branch chain mirrors the source: once a
branch's guard (`section found and it has code blocks`) fires, a falsy
(empty-string) extracted code block falls through to `return None, claim`
without trying later branches. -/
def guessAction (r : Response) : Option Action × Option EquivalenceClaim :=
  let claim : Option EquivalenceClaim :=
    match guessSection r .equivalence with
    | some s => some ⟨s.text⟩
    | none => none
  let action : Option Action :=
    match guessSectionWithCode r .test with
    | some s =>
      match (guessCodeBlocks s).1 with
      | some code => if code ≠ "" then some (.testAction ⟨s.text, code⟩) else none
      | none => none
    | none =>
      match guessSectionWithCode r .experiment with
      | some s =>
        match guessCodeBlocks s with
        | (some code, dbg) =>
          if code ≠ "" then some (.experimentAction ⟨s.text, code, dbg, .experiment⟩)
          else none
        | (none, _) => none
      | none =>
        match guessSectionWithCode r .observation with
        | some s =>
          match guessCodeBlocks s with
          | (some code, dbg) =>
            if code ≠ "" then some (.experimentAction ⟨s.text, code, dbg, .observation⟩)
            else none
          | (none, _) => none
        | none =>
          match guessSectionWithCode r .nokind with
          | some s =>
            match guessCodeBlocks s with
            | (some code, dbg) =>
              if code ≠ "" then some (.experimentAction ⟨s.text, code, dbg, .nokind⟩)
              else none
            | (none, _) => none
          | none => none
  (action, claim)

/-- `Response.guess_experiment`: a guessed test is converted into an
experiment; otherwise the guessed action is returned as-is. -/
def guessExperiment (r : Response) : Option ExperimentDescription :=
  match (guessAction r).1 with
  | some (.testAction t) => some ⟨t.text, t.code, none, .experiment⟩
  | some (.experimentAction e) => some e
  | none => none

/-- `Response.guess_test`: a guessed experiment is converted into a test;
otherwise the guessed action is returned as-is. -/
def guessTest (r : Response) : Option TestDescription :=
  match (guessAction r).1 with
  | some (.experimentAction e) => some ⟨e.text, e.code⟩
  | some (.testAction t) => some t
  | none => none

/-! ### Headline matching

`TEST_HEADLINE_REGEX` and friends have the shape
`^(#+) +([a-zA-Z0-9]+ +)*<keyword>` with `re.IGNORECASE` and `re.match`
(prefix matching).  Words (`[a-zA-Z0-9]+`) and their following space runs are
forced blocks, so the backtracking search reduces to: repeatedly test whether
the keyword is a case-insensitive prefix of the rest, else consume one
alphanumeric word plus at least one space. -/

/-- Case-insensitive prefix test (the keyword is given in lower case, as in the
source regexes). -/
def lowerPrefixOf : List Char → List Char → Bool
  | [], _ => true
  | _ :: _, [] => false
  | k :: ks, c :: cs => k == c.toLower && lowerPrefixOf ks cs

/-- Matches `([a-zA-Z0-9]+ +)*<keyword>` as a prefix of `s`, with structural
fuel: every iteration consumes at least one word character and one space, so
any fuel of at least `s.length` is enough (the wrapper below supplies it). -/
def matchWordsThenKeywordAux (kw : List Char) : Nat → List Char → Bool
  | 0, _ => false
  | fuel + 1, s =>
    if lowerPrefixOf kw s then true
    else
      match s with
      | [] => false
      | c :: rest =>
        if c.isAlphanum then
          match rest.dropWhile Char.isAlphanum with
          | ' ' :: rest2 => matchWordsThenKeywordAux kw fuel (rest2.dropWhile (· == ' '))
          | _ => false
        else false

/-- Matches `([a-zA-Z0-9]+ +)*<keyword>` as a prefix of `s`.  The fuel
invariant `fuel ≥ s.length + 1` holds throughout: each recursion drops at
least two characters and one unit of fuel. -/
def matchWordsThenKeyword (kw : List Char) (s : List Char) : Bool :=
  matchWordsThenKeywordAux kw (s.length + 1) s

/-- `re.match` against one of the headline regexes: returns the nesting level
(the length of the `(#+)` group) on a match.  The greedy `#` run and the
following space run are forced, since neither `#` nor a space can begin a
word or the keyword. -/
def matchHeadline (kw : String) (line : String) : Option Nat :=
  let cs := line.data
  let hashes := cs.takeWhile (· == '#')
  if hashes.isEmpty then none
  else
    match cs.dropWhile (· == '#') with
    | ' ' :: restAfterSpace =>
      if matchWordsThenKeyword kw.data (restAfterSpace.dropWhile (· == ' ')) then
        some hashes.length
      else none
    | _ => none

/-! ### `Loop._parse_response` -/

/-- Loop state of `Loop._parse_response`. -/
structure ParseState where
  section_kind : SectionKind
  section_level : Nat
  section_lines : List String
  sections : List ResponseSection
deriving Repr

/-- `Loop._parse_response_section`: extracts code/debugger blocks classified by
their declared language against the problem's allowed languages; a kindless
section without code blocks is dropped. -/
def parseResponseSection (codeLangs dbgLangs : List String) (text : String)
    (kind : SectionKind) : Option ResponseSection :=
  let markdown_blocks := extractMarkdownCodeBlocks text
  let code_blocks :=
    (markdown_blocks.filter (fun b => codeLangs.contains (b.language.getD ""))).map (·.code)
  let debugger_blocks :=
    (markdown_blocks.filter (fun b => dbgLangs.contains (b.language.getD ""))).map (·.code)
  if !code_blocks.isEmpty || kind != SectionKind.nokind then
    some ⟨text, code_blocks, debugger_blocks, kind⟩
  else none

/-- The headline classification inside `Loop._parse_response`'s loop: the four
regexes are tried in order (test, experiment, observation, equivalence); the
default is `("none", 99)` and the equivalence pattern forces level 1. -/
def classifyLine (line : String) : SectionKind × Nat :=
  match matchHeadline "test" line with
  | some l => (.test, l)
  | none =>
    match matchHeadline "experiment" line with
    | some l => (.experiment, l)
    | none =>
      match matchHeadline "observ" line with
      | some l => (.observation, l)
      | none =>
        match matchHeadline "equiv" line with
        | some _ => (.equivalence, 1)
        | none => (.nokind, 99)

/-- One iteration of the `for line, is_code in ...` loop of
`Loop._parse_response`.  On a section switch, the flushed section is parsed
with the *old* kind, and the headline line seeds the new `section_lines` and is
then appended again by the unconditional `section_lines.append(line)` (the
headline therefore appears twice, as in the source). -/
def parseStep (codeLangs dbgLangs : List String) (st : ParseState)
    (lc : String × Bool) : ParseState :=
  let line := lc.1
  let is_code := lc.2
  if is_code then { st with section_lines := st.section_lines ++ [line] }
  else
    let (kind, level) := classifyLine line
    if kind == SectionKind.nokind then
      { st with section_lines := st.section_lines ++ [line] }
    else
      let st1 :=
        if kind != st.section_kind || level ≤ st.section_level then
          -- Start new section
          let flushed :=
            match parseResponseSection codeLangs dbgLangs (joinNL st.section_lines)
                st.section_kind with
            | some sec => st.sections ++ [sec]
            | none => st.sections
          ParseState.mk kind level [line] flushed
        else st
      { st1 with section_lines := st1.section_lines ++ [line] }

/-- `Loop._parse_response`. -/
def parseResponse (codeLangs dbgLangs : List String) (text : String) : Response :=
  let fin := (detectMarkdownCodeBlocks text).foldl (parseStep codeLangs dbgLangs)
    ⟨.nokind, 0, [], []⟩
  let sections :=
    if !fin.section_lines.isEmpty then
      match parseResponseSection codeLangs dbgLangs (joinNL fin.section_lines)
          fin.section_kind with
      | some sec => fin.sections ++ [sec]
      | none => fin.sections
    else fin.sections
  ⟨text, sections⟩

/-! ## `src/guut/problem.py` — result data classes -/

/-- `problem.ValidationResult`. -/
structure ValidationResult where
  valid : Bool
  error : Option String
deriving DecidableEq, Repr

/-- The per-file entry of the raw coverage JSON read by
`CosmicRayRunner.is_mutant_covered` (`file_coverage["executed_lines"]`). -/
structure FileCoverage where
  executed_lines : List Nat
deriving DecidableEq, Repr

/-- The raw coverage JSON (`coverage.raw`, typed `Any` in the source): its
`"files"` key maps file paths to per-file coverage entries. -/
structure CoverageRaw where
  files : List (String × FileCoverage)
deriving DecidableEq, Repr

/-- `problem.Coverage` (`raw` is `None` when full coverage is missing). -/
structure Coverage where
  covered_lines : List Nat
  missing_lines : List Nat
  raw : Option CoverageRaw
deriving DecidableEq, Repr

/-- `problem.ExecutionResult` (paths modelled as strings). -/
structure ExecutionResult where
  command : List String
  cwd : String
  target : String
  input : String
  output : String
  exitcode : Int
  timeout : Bool
  coverage : Option Coverage
deriving DecidableEq, Repr

/-- `problem.TestResult`. -/
structure TestResult where
  correct : ExecutionResult
  mutant : ExecutionResult
deriving DecidableEq, Repr

/-- `problem.ExperimentResult`. -/
structure ExperimentResult where
  test : ExecutionResult
  debug : Option ExecutionResult
deriving DecidableEq, Repr

/-- `problem.AltExperimentResult`. -/
structure AltExperimentResult where
  test_correct : ExecutionResult
  test_mutant : ExecutionResult
  debug_correct : Option ExecutionResult
  debug_mutant : Option ExecutionResult
deriving DecidableEq, Repr

/-- `ExperimentResult | AltExperimentResult`, the union type
`Problem.run_experiment` returns. -/
inductive AnyExperimentResult where
  | normal (r : ExperimentResult)
  | alt (r : AltExperimentResult)
deriving DecidableEq, Repr

/-! ## `src/guut/loop.py` — records, settings, handlers -/

/-- `loop.Test` (a `TestDescription` plus validation/run data). -/
structure Test where
  text : String
  code : String
  validation_result : ValidationResult
  result : Option TestResult
  kills_mutant : Bool
deriving DecidableEq, Repr

/-- `loop.Experiment` (an `ExperimentDescription` plus validation/run data). -/
structure Experiment where
  text : String
  code : String
  debugger_script : Option String
  kind : EKind
  validation_result : ValidationResult
  result : Option AnyExperimentResult
deriving DecidableEq, Repr

/-- `loop.LoopSettings` (the numeric budgets; `altexp`/`shortexp`/`is_baseline`
only select prompt variants and are omitted). -/
structure LoopSettings where
  max_num_experiments : Nat := 99
  max_retries_for_invalid_test : Nat := 99
  max_num_incomplete_responses : Nat := 2
  max_num_turns : Nat := 10
  test_inctructions_after_turn : Nat := 8
deriving DecidableEq, Repr

/-- `loop.InvalidStateException` (its `state` argument and optional message). -/
structure InvalidStateExc where
  state : Option State
  message : Option String
deriving DecidableEq, Repr

/-- The loop's external collaborators, passed in where the source reads
`self.problem` / `self.prompts`: the problem's language lists, code validation
and sandboxed execution, and the rendered prompt templates (opaque text
produced by jinja templates outside the embedded core). -/
structure LoopEnv where
  codeLangs : List String
  dbgLangs : List String
  validateCode : String → ValidationResult
  runTestExec : String → TestResult
  runExperimentExec : String → Option String → AnyExperimentResult
  experimentDoesntCompileMsg : ValidationResult → String → String
  experimentResultsMsg : AnyExperimentResult → String → String
  testDoesntCompileMsg : ValidationResult → String
  testDoesntDetectMsg : TestResult → String
  resultsForTestMsg : String → TestResult → String
  conversationAbortedMsg : String → String → String
  testPromptMsg : Bool → Int → String
  incompleteResponseMsg : String
  settings : LoopSettings

/-- Prompt templates render untagged `UserMessage`s; `Loop.add_msg` then sets
the tag. -/
def mkUserMessage (content : String) : Message := ⟨.user, content, none⟩

/-- `Loop.add_msg`: sets the tag when one is given (every `State` value is a
truthy string) and appends. -/
def addMsg (conv : Conversation) (msg : Message) (tag : Option State) : Conversation :=
  match tag with
  | some t => conv ++ [{ msg with tag := some t }]
  | none => conv ++ [msg]

/-- `Loop.get_state`: empty conversation ⇒ `EMPTY`; tagged last message ⇒ its
tag; untagged last message ⇒ `INVALID`. -/
def getState (conv : Conversation) : State :=
  match conv.getLast? with
  | none => .empty
  | some m =>
    match m.tag with
    | some s => s
    | none => .invalid

/-- The `condition` closure of `Loop._remove_stop_word_residue`: a line is
residue when falsy, whitespace-only, or all `#` once stripped. -/
def residueCondition (line : String) : Bool :=
  if line == "" then true
  else if pyStrip line == "" then true
  else if (pyStrip line).data.all (· == '#') then true
  else false

/-- `Loop._remove_stop_word_residue`: drop residue lines from the tail. -/
def removeStopWordResidue (text : String) : String :=
  let lines := pySplitlines text
  joinNL ((lines.reverse.dropWhile residueCondition).reverse)

/-- `Loop._clean_response`: strip stop-word residue and re-append a newline
(all other message fields are preserved). -/
def cleanResponse (msg : Message) : Message :=
  { msg with content := removeStopWordResidue msg.content ++ "\n" }

/-- The backward walk of `Loop._concat_incomplete_responses` (argument is the
reversed message list): collect `INCOMPLETE_RESPONSE` messages, skip
`INCOMPLETE_RESPONSE_INSTRUCTIONS_GIVEN` ones, stop at anything else. -/
def collectIncompleteAux : List Message → List Message → List Message
  | [], relevant => relevant
  | msg :: restRev, relevant =>
    if msg.tag == some State.incompleteResponse then
      collectIncompleteAux restRev (msg :: relevant)
    else if msg.tag == some State.incompleteResponseInstructionsGiven then
      collectIncompleteAux restRev relevant
    else relevant

/-- `Loop._concat_incomplete_responses`.  Without `include_message` the
handlers only run on nonempty conversations (`conversation[-1]` would raise in
Python otherwise); the empty case is modelled as no relevant message. -/
def concatIncompleteResponses (conv : Conversation) (includeMessage : Option Message) :
    String :=
  let pair : List Message × List Message :=
    match includeMessage with
    | some m => ([m], conv)
    | none =>
      (match conv.getLast? with
       | some m => [m]
       | none => [], conv.dropLast)
  joinNL ((collectIncompleteAux pair.2.reverse pair.1).map (·.content))

/-- Result of `Loop._prompt_for_action`: the updated conversation and the
updated `self.equivalence` field. -/
structure PromptOutcome where
  conversation : Conversation
  equivalence : Option EquivalenceClaim
deriving Repr

/-- `Loop._prompt_for_action`, with the endpoint's completion passed in as
`rawResponse`: clean the response, concatenate pending incomplete responses,
parse, and tag the new message according to the guessed action (a kindless
code block becomes a test exactly when test instructions were already issued
in this conversation). -/
def promptForAction (codeLangs dbgLangs : List String) (conv : Conversation)
    (oldEquivalence : Option EquivalenceClaim) (rawResponse : Message) : PromptOutcome :=
  let response := cleanResponse rawResponse
  let relevant_text := concatIncompleteResponses conv (some response)
  let raw_experiment := parseResponse codeLangs dbgLangs relevant_text
  let action := (guessAction raw_experiment).1
  let claim := (guessAction raw_experiment).2
  let test_instructions_stated :=
    conv.any (fun m => m.tag == some State.testInstructionsGiven)
  let equivalence := match claim with
    | some c => some c
    | none => oldEquivalence
  match action with
  | none =>
    match claim with
    | some _ => ⟨addMsg conv response (some .claimedEquivalent), equivalence⟩
    | none => ⟨addMsg conv response (some .incompleteResponse), equivalence⟩
  | some (.testAction _) => ⟨addMsg conv response (some .testStated), equivalence⟩
  | some (.experimentAction a) =>
    match a.kind with
    | .experiment => ⟨addMsg conv response (some .experimentStated), equivalence⟩
    | .observation => ⟨addMsg conv response (some .experimentStated), equivalence⟩
    | .nokind =>
      if test_instructions_stated then
        ⟨addMsg conv response (some .testStated), equivalence⟩
      else
        ⟨addMsg conv response (some .experimentStated), equivalence⟩

/-- `Loop._handle_incomplete_response`: count `INCOMPLETE_RESPONSE` tags; abort
beyond the budget, else emit continuation instructions. -/
def handleIncompleteResponse (env : LoopEnv) (conv : Conversation) : Conversation :=
  let num_tries := (conv.filter (fun m => m.tag == some State.incompleteResponse)).length
  if num_tries > env.settings.max_num_incomplete_responses then
    addMsg conv
      (mkUserMessage (env.conversationAbortedMsg "incomplete_response"
        "The LLM has given too many incomplete responses."))
      (some .aborted)
  else
    addMsg conv (mkUserMessage env.incompleteResponseMsg)
      (some .incompleteResponseInstructionsGiven)

/-- The turn-budget tail of `Loop._run_test` (runs after the new message was
appended; note the early `return` on the turn cap and that the invalid-test
check is a separate `if`, not an `elif`). -/
def runTestBudget (env : LoopEnv) (conv : Conversation) (tests : List Test) :
    Conversation × List Test :=
  let num_experiments := (conv.filter (fun m => m.tag == some State.experimentStated)).length
  let num_tests := (conv.filter (fun m => m.tag == some State.testStated)).length
  let num_turns := num_experiments + num_tests
  if num_turns ≥ env.settings.max_num_turns then
    (addMsg conv
      (mkUserMessage (env.conversationAbortedMsg "too_many_turns"
        "The LLM exceeded the allowed number of turns."))
      (some .aborted), tests)
  else
    let conv2 :=
      if num_turns == env.settings.test_inctructions_after_turn then
        addMsg conv
          (mkUserMessage (env.testPromptMsg false
            ((env.settings.max_num_turns : Int) - (num_turns : Int))))
          (some .testInstructionsGiven)
      else conv
    if num_tests > env.settings.max_retries_for_invalid_test then
      (addMsg conv2
        (mkUserMessage (env.conversationAbortedMsg "max_invalid_tests"
          "The LLM has reached the maximum number of invalid tests."))
        (some .aborted), tests)
    else (conv2, tests)

/-- `Loop._run_test`.  Raises (returns `.error`) when no test can be decoded
from the accumulated response text; otherwise validates, runs the test against
both variants, and applies the kill rule `correct.exitcode == 0 and
mutant.exitcode != 0` (on a kill the handler returns immediately after the
`DONE` message, skipping the budget checks). -/
def runTest (env : LoopEnv) (conv : Conversation) (tests : List Test) :
    Except InvalidStateExc (Conversation × List Test) :=
  let relevant_text := concatIncompleteResponses conv none
  let raw_experiment := parseResponse env.codeLangs env.dbgLangs relevant_text
  match guessTest raw_experiment with
  | none => .error ⟨some .testStated, some "No test present but state is test_stated."⟩
  | some test =>
    let validation_result := env.validateCode test.code
    if !validation_result.valid then
      let conv1 := addMsg conv
        (mkUserMessage (env.testDoesntCompileMsg validation_result))
        (some .testDoesntCompile)
      let tests1 := tests ++ [⟨test.text, test.code, validation_result, none, false⟩]
      .ok (runTestBudget env conv1 tests1)
    else
      let result := env.runTestExec test.code
      if result.correct.exitcode == 0 && result.mutant.exitcode != 0 then
        let conv1 := addMsg conv
          (mkUserMessage (env.resultsForTestMsg test.code result)) (some .done)
        let tests1 := tests ++ [⟨test.text, test.code, validation_result, some result, true⟩]
        .ok (conv1, tests1)
      else
        let conv1 := addMsg conv
          (mkUserMessage (env.testDoesntDetectMsg result)) (some .testDoesntDetectMutant)
        let tests1 := tests ++ [⟨test.text, test.code, validation_result, some result, false⟩]
        .ok (runTestBudget env conv1 tests1)

/-- The turn-budget tail of `Loop._run_experiment` (an `elif` chain: abort on
the turn cap; else inject test instructions at the experiment cap or the
configured turn; else abort past the experiment cap). -/
def runExperimentBudget (env : LoopEnv) (conv : Conversation) : Conversation :=
  let num_experiments := (conv.filter (fun m => m.tag == some State.experimentStated)).length
  let num_tests := (conv.filter (fun m => m.tag == some State.testStated)).length
  let num_turns := num_experiments + num_tests
  if num_turns ≥ env.settings.max_num_turns then
    addMsg conv
      (mkUserMessage (env.conversationAbortedMsg "too_many_turns"
        "The LLM exceeded the allowed number of turns."))
      (some .aborted)
  else if num_experiments == env.settings.max_num_experiments ||
      num_turns == env.settings.test_inctructions_after_turn then
    addMsg conv
      (mkUserMessage (env.testPromptMsg
        (num_experiments == env.settings.max_num_experiments)
        ((env.settings.max_num_turns : Int) - (num_turns : Int))))
      (some .testInstructionsGiven)
  else if num_experiments > env.settings.max_num_experiments then
    addMsg conv
      (mkUserMessage (env.conversationAbortedMsg "too_many_experiments"
        "The LLM exceeded the allowed number of experiments."))
      (some .aborted)
  else conv

/-- `Loop._run_experiment`.  Raises (returns `.error`) when no experiment can
be decoded from the accumulated response text; otherwise validates and runs
the experiment, recording the attempt (a validated experiment's kind collapses
to observation/experiment via `replace`, as in the source). -/
def runExperiment (env : LoopEnv) (conv : Conversation) (experiments : List Experiment) :
    Except InvalidStateExc (Conversation × List Experiment) :=
  let relevant_text := concatIncompleteResponses conv none
  let raw_experiment := parseResponse env.codeLangs env.dbgLangs relevant_text
  match guessExperiment raw_experiment with
  | none =>
    .error ⟨some .experimentStated, some "No experiment present but state is experiment_stated."⟩
  | some experiment =>
    let name := if experiment.kind == EKind.observation then "Observation" else "Experiment"
    let validation_result := env.validateCode experiment.code
    if !validation_result.valid then
      let conv1 := addMsg conv
        (mkUserMessage (env.experimentDoesntCompileMsg validation_result name))
        (some .experimentDoesntCompile)
      let experiments1 := experiments ++
        [⟨experiment.text, experiment.code, experiment.debugger_script, experiment.kind,
          validation_result, none⟩]
      .ok (runExperimentBudget env conv1, experiments1)
    else
      let experiment_result := env.runExperimentExec experiment.code experiment.debugger_script
      let conv1 := addMsg conv
        (mkUserMessage (env.experimentResultsMsg experiment_result name))
        (some .experimentResultsGiven)
      let kind2 := if experiment.kind == EKind.observation then EKind.observation
        else EKind.experiment
      let experiments1 := experiments ++
        [⟨experiment.text, experiment.code, experiment.debugger_script, kind2,
          validation_result, some experiment_result⟩]
      .ok (runExperimentBudget env conv1, experiments1)

/-- `loop.Result` restricted to the in-model fields (`timestamp`, `endpoint`,
`prompts`, `problem` and `settings` are external/opaque metadata). -/
structure SessionResult where
  tests : List Test
  experiments : List Experiment
  conversation : Conversation
  mutant_killed : Bool
  equivalence : Option EquivalenceClaim
  id : String
  implementation : String
deriving Repr

/-- `Loop.get_result`: `mutant_killed` is `any(test.kills_mutant for ...)`. -/
def getResult (conv : Conversation) (tests : List Test) (experiments : List Experiment)
    (equivalence : Option EquivalenceClaim) (id : String) : SessionResult :=
  let killing_test_found := tests.any (·.kills_mutant)
  ⟨tests, experiments, conv, killing_test_found, equivalence, id, "loop"⟩

/-- `Result.get_killing_test`: first recorded test with `kills_mutant`. -/
def getKillingTest (r : SessionResult) : Option Test :=
  r.tests.find? (·.kills_mutant)

/-! ## `src/guut/execution.py` -/

/-- `execution.ExecutionResult` (a separate dataclass from
`problem.ExecutionResult`; paths modelled as strings). -/
structure ScriptExecutionResult where
  target : String
  args : List String
  cwd : String
  input : String
  output : String
  exitcode : Int
  timeout : Bool
deriving DecidableEq, Repr

/-- Observable behaviour of the sandboxed subprocess inside
`execution.run_script`: either `communicate` returns within the wall-clock
budget with captured output and a return code, or `TimeoutExpired` is raised
carrying the partial stdout captured so far (`timeout.stdout`, possibly
`None`). -/
inductive ProcOutcome where
  | completed (output : String) (returncode : Int)
  | timedOut (partialStdout : Option String)
deriving DecidableEq, Repr

/-- `execution.run_script`.  A total function: the `TimeoutExpired` branch is
caught and converted into a result with `exitcode=1`, `timeout=True` and the
partial output `timeout.stdout or b""`; nothing is re-raised.  (An empty
`stdin` string is falsy in Python, hence yields an empty `process_input`.) -/
def runScript (script : String) (scriptParent : String) (stdin : Option String)
    (cwd : Option String) (outcome : ProcOutcome) : ScriptExecutionResult :=
  let process_input : String :=
    match stdin with
    | some s => if s == "" then "" else if s.data.getLast? == some '\n' then s else s ++ "\n"
    | none => ""
  let process_cwd := match cwd with | some c => c | none => scriptParent
  match outcome with
  | .completed output returncode =>
    ⟨script, [], process_cwd, process_input, output, returncode, false⟩
  | .timedOut partialStdout =>
    ⟨script, [], process_cwd, process_input, partialStdout.getD "", 1, true⟩

/-! ## `src/guut/cosmic_ray_runner.py` -/

/-- `cosmic_ray.MutantSpec`.  The dataclass declares its first field as
`module_path`, but every consumer (the CLI listing and the runner) reads it as
`mutant.target_path` — the file path of the mutation target inside the module
directory; it is modelled under the accessed name. -/
structure MutantSpec where
  target_path : String
  mutant_op : String
  occurrence : Nat
  line_start : Nat
  line_end : Nat
deriving DecidableEq, Repr

/-- `cosmic_ray_runner.KilledMutant`. -/
structure KilledMutant where
  spec : MutantSpec
  test_result : Option TestResult
deriving DecidableEq, Repr

/-- The mutable mutant bookkeeping of `CosmicRayRunner`: the initial pool
(`self.mutants`, never modified), the alive set, the work queue and the killed
list. -/
structure RunnerState where
  mutants : List MutantSpec
  alive_mutants : List MutantSpec
  mutant_queue : List MutantSpec
  killed_mutants : List KilledMutant
deriving DecidableEq, Repr

/-- `CosmicRayRunner.__init__`: all three lists start as copies of
`mutant_specs`, and `killed_mutants` starts empty. -/
def initRunnerState (mutant_specs : List MutantSpec) : RunnerState :=
  ⟨mutant_specs, mutant_specs, mutant_specs, []⟩

/-- `CosmicRayRunner.next_mutant` with the randomly chosen element passed in:
removes the first occurrence from the queue (the caller picks `m` from the
queue, so `list.remove` cannot raise). -/
def nextMutant (st : RunnerState) (m : MutantSpec) : RunnerState :=
  { st with mutant_queue := st.mutant_queue.erase m }

/-- `files.get(key)` on the coverage JSON's `"files"` dict. -/
def lookupFileCoverage (files : List (String × FileCoverage)) (key : String) :
    Option FileCoverage :=
  (files.find? (fun p => p.1 == key)).map (·.2)

/-- Python `range(a, b)` (empty when `b ≤ a`). -/
def pyRange (a b : Nat) : List Nat :=
  (List.range (b - a)).map (· + a)

/-- `CosmicRayRunner.is_mutant_covered` given the raw coverage JSON (the
source asserts `coverage.raw` and the caller has already checked it): look up
`f"{module_path.name}/{mutant.target_path}"`; if present, test whether any
line of `range(line_start, line_end + 1)` is among the file's executed lines,
else `False`. -/
def isMutantCovered (moduleName : String) (mutant : MutantSpec) (raw : CoverageRaw) : Bool :=
  match lookupFileCoverage raw.files (moduleName ++ "/" ++ mutant.target_path) with
  | some file_coverage =>
    (pyRange mutant.line_start (mutant.line_end + 1)).any
      (fun line => file_coverage.executed_lines.contains line)
  | none => false

/-- The kill transition inside the sweep loop of
`CosmicRayRunner.run_against_alive_mutants`: remove the mutant from the alive
set and the queue (each guarded by a membership test, as in the source) and
record it as killed. -/
def killMutant (st : RunnerState) (m : MutantSpec) (tr : Option TestResult) : RunnerState :=
  { st with
    alive_mutants :=
      if st.alive_mutants.contains m then st.alive_mutants.erase m else st.alive_mutants,
    mutant_queue :=
      if st.mutant_queue.contains m then st.mutant_queue.erase m else st.mutant_queue,
    killed_mutants := st.killed_mutants ++ [⟨m, tr⟩] }

/-- Result of the sweep: the updated runner state, the killed mutants returned
by the method, and — for the re-execution property — the list of mutants on
which `problem.run_test` was invoked. -/
structure SweepOutcome where
  state : RunnerState
  killed_mutants : List KilledMutant
  executed : List MutantSpec
deriving Repr

/-- The `for mutant in self.alive_mutants[::]` loop of
`CosmicRayRunner.run_against_alive_mutants`, folding over the snapshot.
`execTest` stands for building a `CosmicRayProblem` for the mutant and calling
`run_test(code=test.code, collect_coverage=True)`; it is invoked (and the
mutant recorded in `executed`) only when `is_mutant_covered` holds. -/
def sweepFold (moduleName : String) (raw : CoverageRaw)
    (execTest : MutantSpec → TestResult) :
    List MutantSpec → RunnerState → List KilledMutant → List MutantSpec → SweepOutcome
  | [], st, killedAcc, execAcc => ⟨st, killedAcc, execAcc⟩
  | mutant :: rest, st, killedAcc, execAcc =>
    if isMutantCovered moduleName mutant raw then
      let exec_result := execTest mutant
      if exec_result.correct.exitcode == 0 && exec_result.mutant.exitcode != 0 then
        sweepFold moduleName raw execTest rest (killMutant st mutant (some exec_result))
          (killedAcc ++ [⟨mutant, some exec_result⟩]) (execAcc ++ [mutant])
      else
        sweepFold moduleName raw execTest rest st killedAcc (execAcc ++ [mutant])
    else
      sweepFold moduleName raw execTest rest st killedAcc execAcc

/-- `CosmicRayRunner.run_against_alive_mutants`: demand coverage from the
killing test's correct-variant run (raising, modelled as `.error`, when it is
absent), then sweep the snapshot of the alive set. -/
def runAgainstAliveMutants (moduleName : String) (execTest : MutantSpec → TestResult)
    (st : RunnerState) (test : Test) : Except String SweepOutcome :=
  match test.result with
  | none => .error "assertion failed: test.result is not None"
  | some result =>
    match result.correct.coverage with
    | none => .error "No coverage was generated for the test."
    | some coverage =>
      match coverage.raw with
      | none => .error "Full coverage missing for the test."
      | some raw => .ok (sweepFold moduleName raw execTest st.alive_mutants st [] [])

/-- One iteration of `CosmicRayRunner.generate_tests`, with the session's
outcome passed in: pop the chosen mutant from the queue, and if the session
produced a killing test, remove the mutant from the alive set, record the
kill, and run the coverage-guided sweep. -/
def generateStep (moduleName : String) (execTest : MutantSpec → TestResult)
    (st : RunnerState) (mutant : MutantSpec) (killingTest : Option Test) :
    Except String RunnerState :=
  let st1 := nextMutant st mutant
  match killingTest with
  | none => .ok st1
  | some test =>
    let st2 := { st1 with
      alive_mutants :=
        if st1.alive_mutants.contains mutant then st1.alive_mutants.erase mutant
        else st1.alive_mutants,
      killed_mutants := st1.killed_mutants ++ [⟨mutant, test.result⟩] }
    (runAgainstAliveMutants moduleName execTest st2 test).map (·.state)

/-! ## Helper lemmas -/

theorem getState_addMsg (conv : Conversation) (msg : Message) (t : State) :
    getState (addMsg conv msg (some t)) = t := by
  unfold getState addMsg
  simp

theorem any_tag_iff (conv : Conversation) (s : State) :
    conv.any (fun m => m.tag == some s) = true ↔ ∃ m ∈ conv, m.tag = some s := by
  simp [List.any_eq_true]

/-! ## Checked properties -/

/-- C4: for every conversation, `Loop.get_state` returns `EMPTY` on the empty
conversation; otherwise it returns the tag of the last message when that tag
is a valid state (in this program tags only ever hold `State` values or
`None`, so every present tag is a valid state), and `INVALID` in every other
case — in particular when the last message is untagged. -/
theorem C4_get_state (conv : Conversation) :
    (conv = [] → getState conv = State.empty) ∧
    (∀ m s, conv.getLast? = some m → m.tag = some s → getState conv = s) ∧
    (∀ m, conv.getLast? = some m → m.tag = none → getState conv = State.invalid) := by
  refine ⟨?_, ?_, ?_⟩
  · intro h; subst h; rfl
  · intro m s hm ht; unfold getState; rw [hm]; simp [ht]
  · intro m hm ht; unfold getState; rw [hm]; simp [ht]

theorem C4_get_state_witness :
    (([] : Conversation) = [] ∧ getState [] = State.empty) ∧
    (([⟨Role.user, "problem", some State.initial⟩] : Conversation).getLast? =
        some ⟨Role.user, "problem", some State.initial⟩ ∧
      getState [⟨Role.user, "problem", some State.initial⟩] = State.initial) ∧
    (([⟨Role.assistant, "sys", none⟩] : Conversation).getLast? =
        some ⟨Role.assistant, "sys", none⟩ ∧
      getState [⟨Role.assistant, "sys", none⟩] = State.invalid) :=
  ⟨⟨rfl, (C4_get_state []).1 rfl⟩,
   ⟨rfl, (C4_get_state _).2.1 _ State.initial rfl rfl⟩,
   ⟨rfl, (C4_get_state _).2.2 _ rfl rfl⟩⟩

/-- C10: in every `Loop.get_result` output, `mutant_killed` is true iff some
recorded test has `kills_mutant=true`, and `get_killing_test` returns a test
exactly when `mutant_killed` is true — and any returned test has
`kills_mutant=true`. -/
theorem C10_result_consistency (conv : Conversation) (tests : List Test)
    (experiments : List Experiment) (equivalence : Option EquivalenceClaim) (id : String) :
    let r := getResult conv tests experiments equivalence id
    (r.mutant_killed = true ↔ ∃ t ∈ r.tests, t.kills_mutant = true) ∧
    ((getKillingTest r).isSome ↔ r.mutant_killed = true) ∧
    (∀ t, getKillingTest r = some t → t.kills_mutant = true) := by
  refine ⟨?_, ?_, ?_⟩
  · simp [getResult, List.any_eq_true]
  · simp [getResult, getKillingTest, List.find?_isSome, List.any_eq_true]
  · intro t ht
    exact List.find?_some ht

theorem C10_result_consistency_witness :
    (let r := getResult [] [⟨"t", "c", ⟨true, none⟩, none, true⟩] [] none "id0"
     (r.mutant_killed = true ↔ ∃ t ∈ r.tests, t.kills_mutant = true) ∧
     ((getKillingTest r).isSome ↔ r.mutant_killed = true) ∧
     (∀ t, getKillingTest r = some t → t.kills_mutant = true)) :=
  C10_result_consistency [] [⟨"t", "c", ⟨true, none⟩, none, true⟩] [] none "id0"

/-- C8: a sandboxed script execution that exceeds its wall-clock timeout
returns normally (`run_script` is a total function here because the source
catches `TimeoutExpired` and converts it into data): the result carries
`timeout=true`, preserves the partial captured output (`timeout.stdout or
b""`), and reports exit status 1, which is nonzero, so the kill rule
(`exitcode == 0` on the correct side, `exitcode != 0` on the mutant side)
treats the run exactly like one that ran and failed. -/
theorem C8_run_script_timeout (outcome : ProcOutcome) (script scriptParent : String)
    (stdin cwd : Option String) (partialStdout : Option String)
    (htimeout : outcome = ProcOutcome.timedOut partialStdout) :
    (runScript script scriptParent stdin cwd outcome).timeout = true ∧
    (runScript script scriptParent stdin cwd outcome).output = partialStdout.getD "" ∧
    (runScript script scriptParent stdin cwd outcome).exitcode = 1 ∧
    ¬ (runScript script scriptParent stdin cwd outcome).exitcode = 0 := by
  subst htimeout
  simp [runScript]

theorem C8_run_script_timeout_witness :
    (ProcOutcome.timedOut (some "partial output") =
      ProcOutcome.timedOut (some "partial output")) ∧
    ((runScript "test.py" "/tmp/sandbox" (some "input") none
        (ProcOutcome.timedOut (some "partial output"))).timeout = true ∧
     (runScript "test.py" "/tmp/sandbox" (some "input") none
        (ProcOutcome.timedOut (some "partial output"))).output =
       (some "partial output").getD "" ∧
     (runScript "test.py" "/tmp/sandbox" (some "input") none
        (ProcOutcome.timedOut (some "partial output"))).exitcode = 1 ∧
     ¬ (runScript "test.py" "/tmp/sandbox" (some "input") none
        (ProcOutcome.timedOut (some "partial output"))).exitcode = 0) :=
  ⟨rfl, C8_run_script_timeout (ProcOutcome.timedOut (some "partial output"))
    "test.py" "/tmp/sandbox" (some "input") none (some "partial output") rfl⟩

/-- C9: dispatching the run-experiment handler in state `EXPERIMENT_STATED`
when no experiment can be decoded from the accumulated response text — or the
run-test handler in state `TEST_STATED` when no test can be decoded — raises
`InvalidStateException` (modelled as the `.error` branch, which appends no
message) whose carried state is the structural state, distinct from the
`ABORTED` terminal state. -/
theorem C9_fatal_on_missing_action (env : LoopEnv) (conv : Conversation)
    (tests : List Test) (experiments : List Experiment) :
    (getState conv = State.experimentStated →
      guessExperiment (parseResponse env.codeLangs env.dbgLangs
        (concatIncompleteResponses conv none)) = none →
      ∃ e, runExperiment env conv experiments = .error e ∧
        e.state = some State.experimentStated ∧ e.state ≠ some State.aborted) ∧
    (getState conv = State.testStated →
      guessTest (parseResponse env.codeLangs env.dbgLangs
        (concatIncompleteResponses conv none)) = none →
      ∃ e, runTest env conv tests = .error e ∧
        e.state = some State.testStated ∧ e.state ≠ some State.aborted) := by
  constructor
  · intro _ hnone
    have herr : runExperiment env conv experiments = .error
        ⟨some State.experimentStated,
         some "No experiment present but state is experiment_stated."⟩ := by
      simp only [runExperiment, hnone]
    exact ⟨_, herr, rfl, by decide⟩
  · intro _ hnone
    have herr : runTest env conv tests = .error
        ⟨some State.testStated, some "No test present but state is test_stated."⟩ := by
      simp only [runTest, hnone]
    exact ⟨_, herr, rfl, by decide⟩

/-- C6: when the guessed action of a prompt-and-classify turn is a kindless
code block, the new message is tagged `TEST_STATED` iff some earlier message
of the conversation carries `TEST_INSTRUCTIONS_GIVEN`, and
`EXPERIMENT_STATED` otherwise. -/
theorem C6_kindless_fallback (codeLangs dbgLangs : List String) (conv : Conversation)
    (oldEq : Option EquivalenceClaim) (rawResponse : Message) (e : ExperimentDescription)
    (hguess : (guessAction (parseResponse codeLangs dbgLangs
      (concatIncompleteResponses conv (some (cleanResponse rawResponse))))).1 =
      some (Action.experimentAction e))
    (hkind : e.kind = EKind.nokind) :
    (getState (promptForAction codeLangs dbgLangs conv oldEq rawResponse).conversation =
        State.testStated ↔ ∃ m ∈ conv, m.tag = some State.testInstructionsGiven) ∧
    ((¬ ∃ m ∈ conv, m.tag = some State.testInstructionsGiven) →
      getState (promptForAction codeLangs dbgLangs conv oldEq rawResponse).conversation =
        State.experimentStated) := by
  have hsplit : (promptForAction codeLangs dbgLangs conv oldEq rawResponse).conversation =
      if conv.any (fun m => m.tag == some State.testInstructionsGiven) then
        addMsg conv (cleanResponse rawResponse) (some State.testStated)
      else addMsg conv (cleanResponse rawResponse) (some State.experimentStated) := by
    simp only [promptForAction, hguess, hkind, apply_ite PromptOutcome.conversation]
  rw [hsplit]
  by_cases hany : conv.any (fun m => m.tag == some State.testInstructionsGiven) = true
  · rw [if_pos hany, getState_addMsg]
    have hex := (any_tag_iff conv State.testInstructionsGiven).mp hany
    exact ⟨⟨fun _ => hex, fun _ => rfl⟩, fun hne => absurd hex hne⟩
  · have hne : ¬ ∃ m ∈ conv, m.tag = some State.testInstructionsGiven := fun hex =>
      hany ((any_tag_iff conv State.testInstructionsGiven).mpr hex)
    rw [if_neg hany, getState_addMsg]
    exact ⟨⟨fun h => absurd h (by decide), fun hex => absurd hex hne⟩, fun _ => rfl⟩

def c6Conv : Conversation := [⟨Role.user, "problem", some State.initial⟩]

def c6Resp : Message := ⟨Role.assistant, "```python\nx\n```", none⟩

def c6Desc : ExperimentDescription := ⟨"```python\nx\n```", "x", none, EKind.nokind⟩

theorem C6_kindless_fallback_witness :
    ((guessAction (parseResponse ["python"] ["pdb", "debugger"]
        (concatIncompleteResponses c6Conv (some (cleanResponse c6Resp))))).1 =
      some (Action.experimentAction c6Desc)) ∧
    c6Desc.kind = EKind.nokind ∧
    ((getState (promptForAction ["python"] ["pdb", "debugger"] c6Conv none c6Resp).conversation =
        State.testStated ↔ ∃ m ∈ c6Conv, m.tag = some State.testInstructionsGiven) ∧
     ((¬ ∃ m ∈ c6Conv, m.tag = some State.testInstructionsGiven) →
       getState (promptForAction ["python"] ["pdb", "debugger"] c6Conv none c6Resp).conversation =
        State.experimentStated)) :=
  ⟨by decide, rfl,
   C6_kindless_fallback ["python"] ["pdb", "debugger"] c6Conv none c6Resp c6Desc
     (by decide) rfl⟩

theorem runTestBudget_tests (env : LoopEnv) (conv : Conversation) (tests : List Test) :
    (runTestBudget env conv tests).2 = tests := by
  simp only [runTestBudget]
  split
  · rfl
  · split <;> rfl

/-- C1: for every test run that reaches execution in `Loop._run_test` (a test
was decoded and validated), the recorded test kills the mutant iff the
correct-variant execution exits 0 and the mutant-variant execution exits
nonzero; on a kill the handler appends a `DONE`-tagged message and records the
test with `kills_mutant=true`; when the correct-variant run exits nonzero the
recorded `kills_mutant` is false regardless of the mutant exit code. -/
theorem C1_kill_rule (env : LoopEnv) (conv : Conversation) (tests : List Test)
    (test : TestDescription)
    (hguess : guessTest (parseResponse env.codeLangs env.dbgLangs
      (concatIncompleteResponses conv none)) = some test)
    (hvalid : (env.validateCode test.code).valid = true) :
    ∃ conv1 tests1, runTest env conv tests = .ok (conv1, tests1) ∧
      (∃ t, tests1 = tests ++ [t] ∧
        (t.kills_mutant = true ↔ ((env.runTestExec test.code).correct.exitcode = 0 ∧
          (env.runTestExec test.code).mutant.exitcode ≠ 0))) ∧
      (((env.runTestExec test.code).correct.exitcode = 0 ∧
          (env.runTestExec test.code).mutant.exitcode ≠ 0) →
        (∃ msg, conv1 = conv ++ [msg] ∧ msg.tag = some State.done) ∧
        (∃ t, tests1 = tests ++ [t] ∧ t.kills_mutant = true)) ∧
      ((env.runTestExec test.code).correct.exitcode ≠ 0 →
        ∃ t, tests1 = tests ++ [t] ∧ t.kills_mutant = false) := by
  by_cases hkill : ((env.runTestExec test.code).correct.exitcode == 0 &&
      (env.runTestExec test.code).mutant.exitcode != 0) = true
  · have hprop : (env.runTestExec test.code).correct.exitcode = 0 ∧
        (env.runTestExec test.code).mutant.exitcode ≠ 0 := by
      simpa [Bool.and_eq_true] using hkill
    have hrun : runTest env conv tests = .ok
        (addMsg conv (mkUserMessage
            (env.resultsForTestMsg test.code (env.runTestExec test.code)))
          (some State.done),
         tests ++ [⟨test.text, test.code, env.validateCode test.code,
            some (env.runTestExec test.code), true⟩]) := by
      simp only [runTest, hguess, hvalid, hkill, Bool.not_true, Bool.false_eq_true,
        if_false, if_true]
    refine ⟨_, _, hrun, ⟨_, rfl, ?_⟩, fun _ => ⟨⟨_, rfl, rfl⟩, ⟨_, rfl, rfl⟩⟩, fun hc => ?_⟩
    · exact ⟨fun _ => hprop, fun _ => rfl⟩
    · exact absurd hprop.1 hc
  · have hnprop : ¬ ((env.runTestExec test.code).correct.exitcode = 0 ∧
        (env.runTestExec test.code).mutant.exitcode ≠ 0) := by
      intro hc
      exact hkill (by simp [Bool.and_eq_true, hc.1, hc.2])
    have hrun : runTest env conv tests = .ok
        (runTestBudget env
          (addMsg conv (mkUserMessage
              (env.testDoesntDetectMsg (env.runTestExec test.code)))
            (some State.testDoesntDetectMutant))
          (tests ++ [⟨test.text, test.code, env.validateCode test.code,
            some (env.runTestExec test.code), false⟩])) := by
      simp only [runTest, hguess, hvalid, hkill, Bool.not_true, Bool.false_eq_true,
        if_false, if_true]
    refine ⟨_, _, hrun, ?_, fun hc => absurd hc hnprop, fun _ => ?_⟩
    · exact ⟨_, runTestBudget_tests _ _ _, by simp [hnprop]⟩
    · exact ⟨_, runTestBudget_tests _ _ _, rfl⟩

/-- A concrete loop environment used by the concrete scenarios below: the
problem accepts `python` code and `pdb`/`debugger` scripts (as
`CosmicRayProblem` does), validation always succeeds, and the executed test
passes on the correct variant (exit 0) and fails on the mutant (exit 1). -/
def wEnv : LoopEnv where
  codeLangs := ["python"]
  dbgLangs := ["pdb", "debugger"]
  validateCode := fun _ => ⟨true, none⟩
  runTestExec := fun _ =>
    ⟨⟨[], "/tmp/c", "test.py", "", "ok", 0, false, none⟩,
     ⟨[], "/tmp/m", "test.py", "", "boom", 1, false, none⟩⟩
  runExperimentExec := fun _ _ =>
    .normal ⟨⟨[], "/tmp/c", "test.py", "", "ok", 0, false, none⟩, none⟩
  experimentDoesntCompileMsg := fun _ _ => "experiment does not compile"
  experimentResultsMsg := fun _ _ => "experiment results"
  testDoesntCompileMsg := fun _ => "test does not compile"
  testDoesntDetectMsg := fun _ => "test does not detect the mutant"
  resultsForTestMsg := fun _ _ => "test results"
  conversationAbortedMsg := fun _ _ => "conversation aborted"
  testPromptMsg := fun _ _ => "please write a test"
  incompleteResponseMsg := "please complete the response"
  settings := {}

def c1Conv : Conversation :=
  [⟨Role.user, "problem", some State.initial⟩,
   ⟨Role.assistant, "# Test\n```python\nassert 1\n```", some State.testStated⟩]

def c1Desc : TestDescription := ⟨"# Test\n# Test\n```python\nassert 1\n```", "assert 1"⟩

theorem C1_kill_rule_witness :
    (guessTest (parseResponse wEnv.codeLangs wEnv.dbgLangs
      (concatIncompleteResponses c1Conv none)) = some c1Desc) ∧
    ((wEnv.validateCode c1Desc.code).valid = true) ∧
    (∃ conv1 tests1, runTest wEnv c1Conv [] = .ok (conv1, tests1) ∧
      (∃ t, tests1 = [] ++ [t] ∧
        (t.kills_mutant = true ↔ ((wEnv.runTestExec c1Desc.code).correct.exitcode = 0 ∧
          (wEnv.runTestExec c1Desc.code).mutant.exitcode ≠ 0))) ∧
      (((wEnv.runTestExec c1Desc.code).correct.exitcode = 0 ∧
          (wEnv.runTestExec c1Desc.code).mutant.exitcode ≠ 0) →
        (∃ msg, conv1 = c1Conv ++ [msg] ∧ msg.tag = some State.done) ∧
        (∃ t, tests1 = [] ++ [t] ∧ t.kills_mutant = true)) ∧
      ((wEnv.runTestExec c1Desc.code).correct.exitcode ≠ 0 →
        ∃ t, tests1 = [] ++ [t] ∧ t.kills_mutant = false)) :=
  ⟨by decide, rfl, C1_kill_rule wEnv c1Conv [] c1Desc (by decide) rfl⟩

/-- C9's witness conversations: a last message with no parseable content in
the structurally-required states. -/
def c9ConvExp : Conversation :=
  [⟨Role.user, "problem", some State.initial⟩,
   ⟨Role.assistant, "I will think about it.", some State.experimentStated⟩]

def c9ConvTest : Conversation :=
  [⟨Role.user, "problem", some State.initial⟩,
   ⟨Role.assistant, "I will think about it.", some State.testStated⟩]

theorem C9_fatal_on_missing_action_witness :
    (getState c9ConvExp = State.experimentStated ∧
     guessExperiment (parseResponse wEnv.codeLangs wEnv.dbgLangs
       (concatIncompleteResponses c9ConvExp none)) = none ∧
     ∃ e, runExperiment wEnv c9ConvExp [] = .error e ∧
       e.state = some State.experimentStated ∧ e.state ≠ some State.aborted) ∧
    (getState c9ConvTest = State.testStated ∧
     guessTest (parseResponse wEnv.codeLangs wEnv.dbgLangs
       (concatIncompleteResponses c9ConvTest none)) = none ∧
     ∃ e, runTest wEnv c9ConvTest [] = .error e ∧
       e.state = some State.testStated ∧ e.state ≠ some State.aborted) :=
  ⟨⟨by decide, by decide,
    (C9_fatal_on_missing_action wEnv c9ConvExp [] []).1 (by decide) (by decide)⟩,
   ⟨by decide, by decide,
    (C9_fatal_on_missing_action wEnv c9ConvTest [] []).2 (by decide) (by decide)⟩⟩

/-! ### C7: the concrete split-response scenario -/

def c7Conv0 : Conversation := [⟨Role.user, "Problem description.", some State.initial⟩]

/-- First turn: `## Test` with an opened fence ending in `co`. -/
def c7Step1 : PromptOutcome :=
  promptForAction wEnv.codeLangs wEnv.dbgLangs c7Conv0 none
    ⟨Role.assistant, "## Test\n```python\nco", none⟩

/-- The incomplete-response handler then emits continuation instructions. -/
def c7Conv2 : Conversation := handleIncompleteResponse wEnv c7Step1.conversation

/-- Second turn: `de` followed by the closing fence. -/
def c7Step3 : PromptOutcome :=
  promptForAction wEnv.codeLangs wEnv.dbgLangs c7Conv2 none
    ⟨Role.assistant, "de\n```", none⟩

/-- The same action submitted whole in one turn. -/
def c7OneShot : PromptOutcome :=
  promptForAction wEnv.codeLangs wEnv.dbgLangs c7Conv0 none
    ⟨Role.assistant, "## Test\n```python\nco\nde\n```", none⟩

/-- C7: splitting the test's code block across an incomplete message and a
completing message parses like submitting it whole: the first fragment is
tagged `INCOMPLETE_RESPONSE`, the handler emits continuation instructions, and
after the second fragment the concatenated turns parse to a test and the
session reaches `TEST_STATED` — exactly the state reached by the one-shot
submission.  The completing reply is `de` followed by the closing fence on its
own line (`detect_markdown_code_blocks` and the fence regex only recognise a
fence at the start of a line). -/
theorem C7_incomplete_concat :
    getState c7Step1.conversation = State.incompleteResponse ∧
    getState c7Conv2 = State.incompleteResponseInstructionsGiven ∧
    getState c7Step3.conversation = State.testStated ∧
    getState c7OneShot.conversation = State.testStated ∧
    getState c7Step3.conversation = getState c7OneShot.conversation := by
  exact ⟨by decide, by decide, by decide, by decide, by decide⟩

/-! ### C5: parser priority between test and experiment sections -/

/-- A response containing an experiment section with a (nonempty) code block
and a test section whose code block is empty. -/
def c5Text : String := "# Experiment\n```python\nx = 1\n```\n# Test\n```python\n```"

/-- C5 fails as stated: this response text contains both a test-kind section
with a code block and an experiment-kind section with a code block, yet the
action resolution returns no action at all (the empty extracted test code is
falsy, and the matched test branch falls through to `return None, claim`
without trying the experiment branch) — in particular not a `Test`. -/
theorem C5_counterexample :
    let r := parseResponse ["python"] ["pdb", "debugger"] c5Text
    (∃ s ∈ r.sections, s.kind = SectionKind.test ∧ s.code_blocks ≠ []) ∧
    (∃ s ∈ r.sections, s.kind = SectionKind.experiment ∧ s.code_blocks ≠ []) ∧
    (guessAction r).1 = none := by decide

/-- C5 (amended): for every response text whose guessed test section (the last
test-kind section with code blocks) ends in a *nonempty* code block, the
action resolution returns a `Test` action — regardless of where any experiment
sections appear. -/
theorem C5_amended_test_priority (codeLangs dbgLangs : List String) (text : String)
    (s : ResponseSection) (c : String)
    (hs : guessSection (parseResponse codeLangs dbgLangs text) SectionKind.test = some s)
    (hcb : s.code_blocks ≠ [])
    (hlast : s.code_blocks.getLast? = some c)
    (hc : c ≠ "") :
    (guessAction (parseResponse codeLangs dbgLangs text)).1 =
      some (Action.testAction ⟨s.text, c⟩) := by
  have hswc : guessSectionWithCode (parseResponse codeLangs dbgLangs text)
      SectionKind.test = some s := by
    unfold guessSectionWithCode
    rw [hs]
    simp [List.isEmpty_iff, hcb]
  simp only [guessAction, hswc, guessCodeBlocks, hlast]
  simp [hc]

def c5wText : String := "# Experiment\n```python\nx = 1\n```\n# Test\n```python\nassert 1\n```"

def c5wSection : ResponseSection :=
  ⟨"# Test\n# Test\n```python\nassert 1\n```", ["assert 1"], [], .test⟩

/-! ### C2/C3: the scheduler invariant and the coverage-guided sweep -/

/-- The scheduler invariant: the alive set and the killed specs partition the
initial pool (union and disjointness), the queue is a subset of the alive set
— together with the bookkeeping facts (alive set and queue hold no
duplicates) needed to maintain these under `list.remove`. -/
def SchedInv (st : RunnerState) : Prop :=
  (∀ m ∈ st.mutants, m ∈ st.alive_mutants ∨ ∃ k ∈ st.killed_mutants, k.spec = m) ∧
  (∀ m ∈ st.alive_mutants, m ∈ st.mutants) ∧
  (∀ k ∈ st.killed_mutants, k.spec ∈ st.mutants) ∧
  (∀ m ∈ st.alive_mutants, ¬ ∃ k ∈ st.killed_mutants, k.spec = m) ∧
  (∀ m ∈ st.mutant_queue, m ∈ st.alive_mutants) ∧
  st.alive_mutants.Nodup ∧ st.mutant_queue.Nodup

instance (st : RunnerState) : Decidable (SchedInv st) := by
  unfold SchedInv; infer_instance

theorem schedInv_init (pool : List MutantSpec) (h : pool.Nodup) :
    SchedInv (initRunnerState pool) := by
  refine ⟨fun m hm => .inl hm, fun m hm => hm, ?_, ?_, fun m hm => hm, h, h⟩
  · intro k hk; cases hk
  · rintro m _ ⟨k, hk, _⟩; cases hk

/-- Core preservation fact behind both kill sites: removing a mutant from the
alive set (guarded, as in the source), appending it to the killed list, and
replacing the queue with any duplicate-free list of other still-queued mutants
preserves the invariant. -/
theorem schedInv_kill_core (st : RunnerState) (m : MutantSpec) (tr : Option TestResult)
    (queue2 : List MutantSpec)
    (hm : m ∈ st.alive_mutants) (hinv : SchedInv st)
    (hq1 : ∀ x ∈ queue2, x ∈ st.mutant_queue ∧ x ≠ m)
    (hq2 : queue2.Nodup) :
    SchedInv { st with
      alive_mutants :=
        if st.alive_mutants.contains m then st.alive_mutants.erase m
        else st.alive_mutants,
      mutant_queue := queue2,
      killed_mutants := st.killed_mutants ++ [⟨m, tr⟩] } := by
  obtain ⟨h1, h2, h3, h4, h5, h6, h7⟩ := hinv
  have hcont : st.alive_mutants.contains m = true := by simpa using hm
  rw [hcont]
  simp only [if_true]
  refine ⟨?_, ?_, ?_, ?_, ?_, h6.erase m, hq2⟩
  · intro x hx
    rcases h1 x hx with hxa | ⟨k, hk, hs⟩
    · by_cases hxm : x = m
      · exact .inr ⟨⟨m, tr⟩, by simp, hxm.symm⟩
      · exact .inl ((List.mem_erase_of_ne hxm).mpr hxa)
    · exact .inr ⟨k, by simp [hk], hs⟩
  · intro x hx
    exact h2 x (List.mem_of_mem_erase hx)
  · intro k hk
    rcases List.mem_append.mp hk with hk | hk
    · exact h3 k hk
    · simp only [List.mem_singleton] at hk
      subst hk
      exact h2 m hm
  · intro x hx hex
    obtain ⟨hxm, hxa⟩ := (List.Nodup.mem_erase_iff h6).mp hx
    obtain ⟨k, hk, hs⟩ := hex
    rcases List.mem_append.mp hk with hk | hk
    · exact h4 x hxa ⟨k, hk, hs⟩
    · simp only [List.mem_singleton] at hk
      subst hk
      exact hxm hs.symm
  · intro x hx
    obtain ⟨hxq, hxm⟩ := hq1 x hx
    exact (List.mem_erase_of_ne hxm).mpr (h5 x hxq)

theorem schedInv_killMutant (st : RunnerState) (m : MutantSpec) (tr : Option TestResult)
    (hm : m ∈ st.alive_mutants) (hinv : SchedInv st) :
    SchedInv (killMutant st m tr) := by
  unfold killMutant
  by_cases hq : st.mutant_queue.contains m = true
  · rw [if_pos hq]
    refine schedInv_kill_core st m tr _ hm hinv ?_ (hinv.2.2.2.2.2.2.erase m)
    intro x hx
    obtain ⟨hxm, hxq⟩ := (List.Nodup.mem_erase_iff hinv.2.2.2.2.2.2).mp hx
    exact ⟨hxq, hxm⟩
  · rw [if_neg hq]
    refine schedInv_kill_core st m tr _ hm hinv ?_ hinv.2.2.2.2.2.2
    intro x hx
    refine ⟨hx, ?_⟩
    intro hxm
    subst hxm
    exact hq (by simpa using hx)

theorem mem_killMutant_alive {st : RunnerState} {m x : MutantSpec} {tr : Option TestResult}
    (hx : x ∈ st.alive_mutants) (hne : x ≠ m) :
    x ∈ (killMutant st m tr).alive_mutants := by
  unfold killMutant
  dsimp only
  split
  · exact (List.mem_erase_of_ne hne).mpr hx
  · exact hx

theorem schedInv_sweepFold (moduleName : String) (raw : CoverageRaw)
    (execTest : MutantSpec → TestResult) :
    ∀ (snapshot : List MutantSpec) (st : RunnerState) (killedAcc : List KilledMutant)
      (execAcc : List MutantSpec),
      SchedInv st → (∀ x ∈ snapshot, x ∈ st.alive_mutants) → snapshot.Nodup →
      SchedInv (sweepFold moduleName raw execTest snapshot st killedAcc execAcc).state := by
  intro snapshot
  induction snapshot with
  | nil => intro st ka ea hinv _ _; exact hinv
  | cons mutant rest ih =>
    intro st ka ea hinv hsub hnd
    obtain ⟨hm, hrest⟩ := List.nodup_cons.mp hnd
    rw [sweepFold]
    by_cases hcov : isMutantCovered moduleName mutant raw = true
    · rw [if_pos hcov]
      by_cases hkill : ((execTest mutant).correct.exitcode == 0 &&
          (execTest mutant).mutant.exitcode != 0) = true
      · rw [if_pos hkill]
        refine ih _ _ _ ?_ ?_ hrest
        · exact schedInv_killMutant st mutant _ (hsub mutant (by simp)) hinv
        · intro x hx
          exact mem_killMutant_alive (hsub x (by simp [hx]))
            (fun he => hm (he ▸ hx))
      · rw [if_neg hkill]
        exact ih _ _ _ hinv (fun x hx => hsub x (by simp [hx])) hrest
    · rw [if_neg hcov]
      exact ih _ _ _ hinv (fun x hx => hsub x (by simp [hx])) hrest

theorem schedInv_runAgainst (moduleName : String) (execTest : MutantSpec → TestResult)
    (st : RunnerState) (test : Test) (out : SweepOutcome)
    (hinv : SchedInv st)
    (h : runAgainstAliveMutants moduleName execTest st test = .ok out) :
    SchedInv out.state := by
  unfold runAgainstAliveMutants at h
  cases hres : test.result with
  | none => simp only [hres] at h; exact Except.noConfusion h
  | some result =>
    simp only [hres] at h
    cases hcov : result.correct.coverage with
    | none => simp only [hcov] at h; exact Except.noConfusion h
    | some coverage =>
      simp only [hcov] at h
      cases hraw : coverage.raw with
      | none => simp only [hraw] at h; exact Except.noConfusion h
      | some raw =>
        simp only [hraw, Except.ok.injEq] at h
        subst h
        exact schedInv_sweepFold moduleName raw execTest st.alive_mutants st [] []
          hinv (fun x hx => hx) hinv.2.2.2.2.2.1

theorem schedInv_generateStep (moduleName : String) (execTest : MutantSpec → TestResult)
    (st : RunnerState) (mutant : MutantSpec) (killingTest : Option Test)
    (st2 : RunnerState)
    (hq : mutant ∈ st.mutant_queue) (hinv : SchedInv st)
    (h : generateStep moduleName execTest st mutant killingTest = .ok st2) :
    SchedInv st2 := by
  have halive : mutant ∈ st.alive_mutants := hinv.2.2.2.2.1 mutant hq
  have hinv1 : SchedInv (nextMutant st mutant) := by
    obtain ⟨h1, h2, h3, h4, h5, h6, h7⟩ := hinv
    exact ⟨h1, h2, h3, h4, fun x hx => h5 x (List.mem_of_mem_erase hx), h6, h7.erase mutant⟩
  simp only [generateStep] at h
  cases killingTest with
  | none =>
    injection h with h
    subst h
    exact hinv1
  | some test =>
    have hnq : ¬ mutant ∈ (nextMutant st mutant).mutant_queue := by
      intro hmem
      have := (List.Nodup.mem_erase_iff hinv.2.2.2.2.2.2).mp hmem
      exact this.1 rfl
    have hinv2 : SchedInv { nextMutant st mutant with
        alive_mutants :=
          if (nextMutant st mutant).alive_mutants.contains mutant then
            (nextMutant st mutant).alive_mutants.erase mutant
          else (nextMutant st mutant).alive_mutants,
        killed_mutants := (nextMutant st mutant).killed_mutants ++ [⟨mutant, test.result⟩] } := by
      have := schedInv_kill_core (nextMutant st mutant) mutant test.result
        (nextMutant st mutant).mutant_queue halive hinv1
        (fun x hx => ⟨hx, fun he => hnq (he ▸ hx)⟩) hinv1.2.2.2.2.2.2
      exact this
    simp only at h
    cases hrun : runAgainstAliveMutants moduleName execTest
        { nextMutant st mutant with
          alive_mutants :=
            if (nextMutant st mutant).alive_mutants.contains mutant then
              (nextMutant st mutant).alive_mutants.erase mutant
            else (nextMutant st mutant).alive_mutants,
          killed_mutants := (nextMutant st mutant).killed_mutants ++ [⟨mutant, test.result⟩] }
        test with
    | error e => rw [hrun] at h; cases h
    | ok out =>
      rw [hrun] at h
      injection h with h
      subst h
      exact schedInv_runAgainst moduleName execTest _ test out hinv2 hrun

/-- C2: the scheduler invariant — alive ∪ killed-specs equals the initial
mutant pool, the two are disjoint, and the queue is a subset of the alive set
— holds initially for a duplicate-free pool and is preserved by every
transition: each individual coverage-sweep kill (`killMutant`), every full
sweep, and every completed session step of `generate_tests`. -/
theorem C2_scheduler_invariant :
    (∀ pool : List MutantSpec, pool.Nodup → SchedInv (initRunnerState pool)) ∧
    (∀ (st : RunnerState) (m : MutantSpec) (tr : Option TestResult),
      m ∈ st.alive_mutants → SchedInv st → SchedInv (killMutant st m tr)) ∧
    (∀ (moduleName : String) (execTest : MutantSpec → TestResult) (st : RunnerState)
       (test : Test) (out : SweepOutcome), SchedInv st →
      runAgainstAliveMutants moduleName execTest st test = .ok out →
      SchedInv out.state) ∧
    (∀ (moduleName : String) (execTest : MutantSpec → TestResult) (st : RunnerState)
       (mutant : MutantSpec) (killingTest : Option Test) (st2 : RunnerState),
      mutant ∈ st.mutant_queue → SchedInv st →
      generateStep moduleName execTest st mutant killingTest = .ok st2 →
      SchedInv st2) :=
  ⟨schedInv_init, schedInv_killMutant,
   fun mn ex st t out hinv h => schedInv_runAgainst mn ex st t out hinv h,
   fun mn ex st m kt st2 hq hinv h => schedInv_generateStep mn ex st m kt st2 hq hinv h⟩

def w2a : MutantSpec := ⟨"a.py", "op1", 0, 1, 2⟩

def w2b : MutantSpec := ⟨"b.py", "op2", 1, 5, 6⟩

def w2St : RunnerState := initRunnerState [w2a, w2b]

/-- A sweep execution in which every mutant's test kills it. -/
def w2Exec : MutantSpec → TestResult := fun _ =>
  ⟨⟨[], "/tmp/c", "test.py", "", "", 0, false, none⟩,
   ⟨[], "/tmp/m", "test.py", "", "", 1, false, none⟩⟩

/-- A killing test whose correct-variant run carries coverage: only
`mod/a.py`, line 1, was executed. -/
def w2Test : Test :=
  ⟨"t", "assert 1", ⟨true, none⟩,
   some ⟨⟨[], "/tmp/c", "test.py", "", "", 0, false,
          some ⟨[1], [], some ⟨[("mod/a.py", ⟨[1]⟩)]⟩⟩⟩,
         ⟨[], "/tmp/m", "test.py", "", "", 1, false, none⟩⟩, true⟩

theorem C2_scheduler_invariant_witness :
    (([w2a, w2b] : List MutantSpec).Nodup ∧ SchedInv (initRunnerState [w2a, w2b])) ∧
    (w2a ∈ w2St.alive_mutants ∧ SchedInv w2St ∧ SchedInv (killMutant w2St w2a none)) ∧
    (∃ out, runAgainstAliveMutants "mod" w2Exec w2St w2Test = .ok out ∧
      SchedInv out.state) ∧
    (w2b ∈ w2St.mutant_queue ∧
      ∃ st2, generateStep "mod" w2Exec w2St w2b none = .ok st2 ∧ SchedInv st2) :=
  ⟨⟨by decide, C2_scheduler_invariant.1 [w2a, w2b] (by decide)⟩,
   ⟨by decide, by decide,
    C2_scheduler_invariant.2.1 w2St w2a none (by decide) (by decide)⟩,
   ⟨_, rfl, C2_scheduler_invariant.2.2.1 "mod" w2Exec w2St w2Test _ (by decide) rfl⟩,
   ⟨by decide, _, rfl,
    C2_scheduler_invariant.2.2.2 "mod" w2Exec w2St w2b none _ (by decide) (by decide) rfl⟩⟩

theorem mem_pyRange {a b line : Nat} : line ∈ pyRange a b ↔ a ≤ line ∧ line < b := by
  unfold pyRange
  simp only [List.mem_map, List.mem_range]
  constructor
  · rintro ⟨x, hx, rfl⟩; omega
  · rintro ⟨ha, hb⟩; exact ⟨line - a, by omega, by omega⟩

theorem isMutantCovered_iff (moduleName : String) (m : MutantSpec) (raw : CoverageRaw) :
    isMutantCovered moduleName m raw = true ↔
      ∃ fc, lookupFileCoverage raw.files (moduleName ++ "/" ++ m.target_path) = some fc ∧
        ∃ line, m.line_start ≤ line ∧ line ≤ m.line_end ∧ line ∈ fc.executed_lines := by
  unfold isMutantCovered
  cases hl : lookupFileCoverage raw.files (moduleName ++ "/" ++ m.target_path) with
  | none => simp
  | some fc =>
    simp only [Option.some.injEq, List.any_eq_true]
    constructor
    · rintro ⟨line, hline, hmem⟩
      obtain ⟨ha, hb⟩ := mem_pyRange.mp hline
      exact ⟨fc, rfl, line, ha, by omega, by simpa using hmem⟩
    · rintro ⟨fc2, hfc2, line, ha, hb, hmem⟩
      subst hfc2
      exact ⟨line, mem_pyRange.mpr ⟨ha, by omega⟩, by simpa using hmem⟩

theorem sweepFold_executed (moduleName : String) (raw : CoverageRaw)
    (execTest : MutantSpec → TestResult) :
    ∀ (snapshot : List MutantSpec) (st : RunnerState) (killedAcc : List KilledMutant)
      (execAcc : List MutantSpec),
      (sweepFold moduleName raw execTest snapshot st killedAcc execAcc).executed =
        execAcc ++ snapshot.filter (fun m => isMutantCovered moduleName m raw) := by
  intro snapshot
  induction snapshot with
  | nil => intro st ka ea; simp [sweepFold]
  | cons mutant rest ih =>
    intro st ka ea
    rw [sweepFold]
    by_cases hcov : isMutantCovered moduleName mutant raw = true
    · have hfil : List.filter (fun m => isMutantCovered moduleName m raw) (mutant :: rest) =
          mutant :: rest.filter (fun m => isMutantCovered moduleName m raw) :=
        List.filter_cons_of_pos (by simpa using hcov)
      rw [if_pos hcov]
      by_cases hkill : ((execTest mutant).correct.exitcode == 0 &&
          (execTest mutant).mutant.exitcode != 0) = true
      · rw [if_pos hkill, ih, hfil]
        simp
      · rw [if_neg hkill, ih, hfil]
        simp
    · have hfil : List.filter (fun m => isMutantCovered moduleName m raw) (mutant :: rest) =
          rest.filter (fun m => isMutantCovered moduleName m raw) :=
        List.filter_cons_of_neg (by simpa using hcov)
      rw [if_neg hcov, ih, hfil]

/-- C3: in the coverage-guided sweep after a killing test, the test is
re-executed exactly on the alive mutants whose inclusive line range
`[line_start, line_end]` intersects the executed lines recorded for the
mutant's target file in the correct-variant coverage snapshot; a mutant whose
range meets no covered line, or whose target file has no coverage entry
(`is_mutant_covered` is false in both cases), is never re-executed in that
sweep. -/
theorem C3_coverage_sweep (moduleName : String) (execTest : MutantSpec → TestResult)
    (st : RunnerState) (test : Test) (result : TestResult) (coverage : Coverage)
    (raw : CoverageRaw)
    (h1 : test.result = some result) (h2 : result.correct.coverage = some coverage)
    (h3 : coverage.raw = some raw) :
    ∃ out, runAgainstAliveMutants moduleName execTest st test = .ok out ∧
      (∀ m, m ∈ out.executed ↔
        (m ∈ st.alive_mutants ∧ isMutantCovered moduleName m raw = true)) ∧
      (∀ m, isMutantCovered moduleName m raw = true ↔
        ∃ fc, lookupFileCoverage raw.files (moduleName ++ "/" ++ m.target_path) = some fc ∧
          ∃ line, m.line_start ≤ line ∧ line ≤ m.line_end ∧ line ∈ fc.executed_lines) := by
  refine ⟨sweepFold moduleName raw execTest st.alive_mutants st [] [], ?_, ?_,
    fun m => isMutantCovered_iff moduleName m raw⟩
  · simp only [runAgainstAliveMutants, h1, h2, h3]
  · intro m
    rw [sweepFold_executed]
    simp [List.mem_filter]

def w3Result : TestResult :=
  ⟨⟨[], "/tmp/c", "test.py", "", "", 0, false,
    some ⟨[1], [], some ⟨[("mod/a.py", ⟨[1]⟩)]⟩⟩⟩,
   ⟨[], "/tmp/m", "test.py", "", "", 1, false, none⟩⟩

def w3Test : Test := ⟨"t", "assert 1", ⟨true, none⟩, some w3Result, true⟩

theorem C3_coverage_sweep_witness :
    (w3Test.result = some w3Result ∧
     w3Result.correct.coverage = some ⟨[1], [], some ⟨[("mod/a.py", ⟨[1]⟩)]⟩⟩ ∧
     (⟨[1], [], some ⟨[("mod/a.py", ⟨[1]⟩)]⟩⟩ : Coverage).raw =
       some ⟨[("mod/a.py", ⟨[1]⟩)]⟩) ∧
    (∃ out, runAgainstAliveMutants "mod" w2Exec w2St w3Test = .ok out ∧
      (∀ m, m ∈ out.executed ↔
        (m ∈ w2St.alive_mutants ∧ isMutantCovered "mod" m ⟨[("mod/a.py", ⟨[1]⟩)]⟩ = true)) ∧
      (∀ m, isMutantCovered "mod" m ⟨[("mod/a.py", ⟨[1]⟩)]⟩ = true ↔
        ∃ fc, lookupFileCoverage (⟨[("mod/a.py", ⟨[1]⟩)]⟩ : CoverageRaw).files
            ("mod" ++ "/" ++ m.target_path) = some fc ∧
          ∃ line, m.line_start ≤ line ∧ line ≤ m.line_end ∧ line ∈ fc.executed_lines)) :=
  ⟨⟨rfl, rfl, rfl⟩,
   C3_coverage_sweep "mod" w2Exec w2St w3Test w3Result
     ⟨[1], [], some ⟨[("mod/a.py", ⟨[1]⟩)]⟩⟩ ⟨[("mod/a.py", ⟨[1]⟩)]⟩ rfl rfl rfl⟩

theorem C5_amended_test_priority_witness :
    (guessSection (parseResponse ["python"] ["pdb", "debugger"] c5wText)
      SectionKind.test = some c5wSection) ∧
    c5wSection.code_blocks ≠ [] ∧
    c5wSection.code_blocks.getLast? = some "assert 1" ∧
    ("assert 1" : String) ≠ "" ∧
    (guessAction (parseResponse ["python"] ["pdb", "debugger"] c5wText)).1 =
      some (Action.testAction ⟨c5wSection.text, "assert 1"⟩) :=
  ⟨by decide, by decide, by decide, by decide,
   C5_amended_test_priority ["python"] ["pdb", "debugger"] c5wText c5wSection "assert 1"
     (by decide) (by decide) (by decide) (by decide)⟩

end Guut
